import Mathlib

/-!
Verification of the annotation anchor-resolution and store-reconciliation
engine specified for the astro-inline-review integration. The repository
under review ships only the acceptance tests for that engine, so the
definitions below are modelled from the specification document (sections 3,
4, 5, 7) and are exercised exactly the way the acceptance tests exercise
the real component.
-/

namespace InlineReview

/-- Modelled from the spec: a reply attached by the consuming agent to an
annotation, a pair of message and ISO-8601 creation timestamp. -/
structure Reply where
  message : String
  createdAt : String
  deriving DecidableEq, Repr

/-- Modelled from the spec: the stored text anchor of an annotation,
an XPath range plus a textual context snapshot. -/
structure TextAnchor where
  startXPath : String
  endXPath : String
  startOffset : Nat
  endOffset : Nat
  selectedText : String
  contextBefore : String
  contextAfter : String
  deriving DecidableEq, Repr

/-- Modelled from the spec: an annotation record of the persisted store.
Lifecycle markers resolvedAt and status are optional; replies default to
the empty sequence. -/
structure Annot where
  id : String
  pageUrl : String
  note : String
  createdAt : String
  updatedAt : String
  selectedText : String
  range : Option TextAnchor
  resolvedAt : Option String
  status : Option String
  replies : List Reply
  deriving DecidableEq, Repr

/-- Modelled from the spec: a page note, scoped like an annotation but with
no anchor. -/
structure PageNote where
  id : String
  pageUrl : String
  text : String
  createdAt : String
  updatedAt : String
  deriving DecidableEq, Repr

/-- Modelled from the spec: the versioned persisted store document. -/
structure Store where
  version : Nat
  annotations : List Annot
  pageNotes : List PageNote
  deriving DecidableEq, Repr

/-- Modelled from the spec: the fresh empty store that load falls back to. -/
def emptyStore : Store := { version := 1, annotations := [], pageNotes := [] }

/-- Modelled from the spec: the expected schema version of the store file. -/
def expectedVersion : Nat := 1

/-- Modelled from the spec: the outcome of parsing the persisted JSON
document. Parse failure is one constructor; a parse that succeeded carries
the version field and the decoded collections. -/
inductive PersistedDoc where
  | malformed
  | parsed (version : Nat) (annotations : List Annot) (pageNotes : List PageNote)
  deriving DecidableEq, Repr

/-- Modelled from the spec: load parses the persisted document; on parse
failure or schema-version mismatch it returns a fresh empty store, silently
discarding prior data. -/
def load : PersistedDoc → Store
  | .malformed => emptyStore
  | .parsed v anns notes =>
      if v = expectedVersion then { version := v, annotations := anns, pageNotes := notes }
      else emptyStore

/-- A persisted document the loader must reject: malformed JSON, or a
version field different from the expected schema version. -/
def rejectedDoc : PersistedDoc → Prop
  | .malformed => True
  | .parsed v _ _ => v ≠ expectedVersion

/-- Modelled from the spec: a merge-patch body for an annotation. A field
that is none is absent from the patch body and must be preserved; a field
that is some is merged in. -/
structure AnnotPatch where
  note : Option String := none
  selectedText : Option String := none
  status : Option String := none
  resolvedAt : Option String := none
  replies : Option (List Reply) := none
  deriving DecidableEq, Repr

/-- The patch body that touches only the note field. -/
def notePatch (n : String) : AnnotPatch := { note := some n }

/-- Modelled from the spec: strict field-level merge of a patch into an
existing record; only supplied fields are merged, updatedAt is always
refreshed, every absent field is preserved. -/
def applyPatch (a : Annot) (p : AnnotPatch) (now : String) : Annot :=
  { a with
    note := p.note.getD a.note
    selectedText := p.selectedText.getD a.selectedText
    status := (p.status.map some).getD a.status
    resolvedAt := (p.resolvedAt.map some).getD a.resolvedAt
    replies := p.replies.getD a.replies
    updatedAt := now }

/-- Whether the store holds an annotation with the given id. -/
def Store.hasAnnot (s : Store) (i : String) : Bool :=
  s.annotations.any (fun a => a.id = i)

/-- Whether the store holds a page note with the given id. -/
def Store.hasPageNote (s : Store) (i : String) : Bool :=
  s.pageNotes.any (fun n => n.id = i)

/-- Modelled from the spec: the response of an API endpoint, an HTTP status
code plus, for failures, a structured JSON body with an error field. -/
structure ApiResponse where
  status : Nat
  errorField : Option String
  deriving DecidableEq, Repr

/-- Modelled from the spec: PATCH on an annotation id. 404 with an error
body when the id is unknown, leaving the store untouched; otherwise a
strict merge-patch of the supplied fields into that record. -/
def handlePatchAnnot (s : Store) (i : String) (p : AnnotPatch)
    (now : String) : ApiResponse × Store :=
  if s.hasAnnot i then
    ({ status := 200, errorField := none },
     { s with annotations :=
        s.annotations.map (fun a => if a.id = i then applyPatch a p now else a) })
  else
    ({ status := 404, errorField := some "Annot not found" }, s)

/-- Modelled from the spec: DELETE on an annotation id. 404 with an error
body when the id is unknown, leaving the store untouched; otherwise hard
removal of the record. -/
def handleDeleteAnnot (s : Store) (i : String) : ApiResponse × Store :=
  if s.hasAnnot i then
    ({ status := 200, errorField := none },
     { s with annotations := s.annotations.filter (fun a => a.id ≠ i) })
  else
    ({ status := 404, errorField := some "Annot not found" }, s)

/-- Modelled from the spec: PATCH on a page-note id, same contract shape as
annotations. -/
def handlePatchPageNote (s : Store) (i : String) (newText : String)
    (now : String) : ApiResponse × Store :=
  if s.hasPageNote i then
    ({ status := 200, errorField := none },
     { s with pageNotes :=
        s.pageNotes.map (fun n =>
          if n.id = i then { n with text := newText, updatedAt := now } else n) })
  else
    ({ status := 404, errorField := some "Page note not found" }, s)

/-- Modelled from the spec: DELETE on a page-note id, same contract shape
as annotations. -/
def handleDeletePageNote (s : Store) (i : String) : ApiResponse × Store :=
  if s.hasPageNote i then
    ({ status := 200, errorField := none },
     { s with pageNotes := s.pageNotes.filter (fun n => n.id ≠ i) })
  else
    ({ status := 404, errorField := some "Page note not found" }, s)

/-!
Anchor resolver (spec section 4.1): a three-tier fallback turning a stored
text anchor back into a live highlight or declaring the annotation
orphaned. The live document is modelled as its flattened text content plus
the set of XPath-addressable text nodes with their lengths.
-/

/-- Modelled from the spec: the current document as seen by the resolver,
a list of resolvable XPath text nodes (path and node text length) plus the
flattened text content searched by the Tier 2 context match. -/
structure Document where
  nodes : List (String × Nat)
  text : List Char
  deriving DecidableEq, Repr

/-- Look an XPath up among the resolvable text nodes of the document,
returning the length of the node it addresses. -/
def Document.lookup (d : Document) (xp : String) : Option Nat :=
  (d.nodes.find? (fun n => n.1 = xp)).map (fun n => n.2)

/-- Modelled from the spec: Tier 1 structural match succeeds iff both
endpoint XPaths resolve to existing nodes with the recorded offsets in
range. -/
def tier1Resolves (d : Document) (r : TextAnchor) : Bool :=
  match d.lookup r.startXPath, d.lookup r.endXPath with
  | some ls, some le => r.startOffset ≤ ls && r.endOffset ≤ le
  | _, _ => false

/-- Modelled from the spec: whether position i of the document text starts
an occurrence of selectedText whose immediately preceding substring equals
contextBefore and whose immediately following substring equals
contextAfter. -/
def contextMatchAt (d : Document) (r : TextAnchor) (i : Nat) : Bool :=
  (d.text.drop i).take r.selectedText.length = r.selectedText.data &&
  r.contextBefore.length ≤ i &&
  (d.text.take i).drop (i - r.contextBefore.length) = r.contextBefore.data &&
  (d.text.drop (i + r.selectedText.length)).take r.contextAfter.length = r.contextAfter.data

/-- Modelled from the spec: Tier 2 context match, scanning the document
text for the first occurrence of selectedText flanked by the recorded
context; the first matching occurrence wins. -/
def findContextMatch (d : Document) (r : TextAnchor) : Option Nat :=
  (List.range (d.text.length + 1)).find? (fun i => contextMatchAt d r i)

/-- The tri-state result of anchor resolution: resolved structurally,
resolved by context at a text position, or orphaned. -/
inductive Resolution where
  | tier1
  | tier2 (pos : Nat)
  | orphaned
  deriving DecidableEq, Repr

/-- Modelled from the spec: resolve a stored anchor with the strict tier
order — structural match first, context match only when Tier 1 fails,
orphaned when both fail. Total, so resolution never throws. -/
def resolveAnchor (d : Document) (r : TextAnchor) : Resolution :=
  if tier1Resolves d r then .tier1
  else
    match findContextMatch d r with
    | some i => .tier2 i
    | none => .orphaned

/-- A rendered DOM highlight mark: the data-air-id it carries and the text
it covers. -/
structure Mark where
  airId : String
  covered : List Char
  deriving DecidableEq, Repr

/-- Modelled from the spec: the highlight marks produced for one text
annotation on page load. A Tier 1 resolution highlights the stored range
text, a Tier 2 resolution highlights the matched document substring, an
orphaned annotation produces no mark; an annotation without a text anchor
produces no text mark. -/
def marksFor (d : Document) (a : Annot) : List Mark :=
  match a.range with
  | none => []
  | some r =>
      match resolveAnchor d r with
      | .tier1 => [{ airId := a.id, covered := r.selectedText.data }]
      | .tier2 i => [{ airId := a.id, covered := (d.text.drop i).take r.selectedText.length }]
      | .orphaned => []

/-- The annotations of the store scoped to one page. -/
def pageAnnots (s : Store) (url : String) : List Annot :=
  s.annotations.filter (fun a => a.pageUrl = url)

/-- Modelled from the spec: the highlight marks rendered after a page
load, one resolution attempt per annotation of the current page. -/
def restoreHighlights (d : Document) (s : Store) (url : String) : List Mark :=
  (pageAnnots s url).flatMap (marksFor d)

/-- Modelled from the spec: the panel list renders every annotation of the
current page, orphaned or not — an orphaned annotation is listed, never
dropped. -/
def panelItems (s : Store) (url : String) : List Annot :=
  pageAnnots s url

/-- Modelled from the spec: the FAB badge counts the annotations of the
current page only, never the page notes. -/
def badgeCount (s : Store) (url : String) : Nat :=
  (pageAnnots s url).length

/-!
Highlight application and removal (spec section 4.1, multi-node
selections). The light DOM region containing a selection is modelled as a
list of element groups; each group holds the inline pieces (text nodes and
mark elements) of one element. Text nodes in distinct groups are never
adjacent, so normalization merges adjacent text nodes within a group only.
-/

/-- An inline DOM piece: a text node or a highlight mark element wrapping
text, carrying its data-air-id. -/
inductive Piece where
  | ptext (s : List Char)
  | pmark (airId : String) (s : List Char)
  deriving DecidableEq, Repr

/-- The text content of one piece. -/
def Piece.content : Piece → List Char
  | .ptext s => s
  | .pmark _ s => s

/-- One element of the region: the list of its inline pieces. -/
abbrev Group := List Piece

/-- The DOM region a selection can span: a list of element groups. -/
abbrev Region := List Group

/-- The character length of a group. -/
def groupLen (g : Group) : Nat :=
  (g.map (fun p => p.content.length)).sum

/-- The flattened text content of a group. -/
def groupText (g : Group) : List Char :=
  (g.map Piece.content).flatten

/-- The flattened text content of a region. -/
def regionText (r : Region) : List Char :=
  (r.map groupText).flatten

/-- The number of text nodes in a group. -/
def groupTextNodes (g : Group) : Nat :=
  (g.filter (fun p => match p with | .ptext _ => true | _ => false)).length

/-- The number of text nodes in a region, the count the acceptance tests
take before and after an annotation lifecycle. -/
def textNodeCount (r : Region) : Nat :=
  (r.map groupTextNodes).sum

/-- The marks of a group carrying a given data-air-id. -/
def groupMarks (i : String) (g : Group) : Nat :=
  (g.filter (fun p => match p with | .pmark j _ => j = i | _ => false)).length

/-- The marks of a region carrying a given data-air-id. -/
def regionMarks (i : String) (r : Region) : Nat :=
  (r.map (groupMarks i)).sum

/-- Modelled from the spec: wrap the part of each text node that the
selection, given as the character interval from a to b over the flattened
region text, covers into a mark element with the annotation id, splitting
the text node around it; text nodes the selection misses and existing
marks are untouched. The parameter o is the flattened offset of the first
piece. -/
def applyPieces (i : String) (a b : Nat) : Nat → List Piece → List Piece
  | _, [] => []
  | o, .pmark j s :: rest => .pmark j s :: applyPieces i a b (o + s.length) rest
  | o, .ptext s :: rest =>
      let lo := max a o
      let hi := min b (o + s.length)
      if lo < hi then
        (if lo = o then [] else [Piece.ptext (s.take (lo - o))]) ++
        [Piece.pmark i ((s.drop (lo - o)).take (hi - lo))] ++
        (if hi = o + s.length then [] else [Piece.ptext (s.drop (hi - o))]) ++
        applyPieces i a b (o + s.length) rest
      else
        .ptext s :: applyPieces i a b (o + s.length) rest

/-- Modelled from the spec: apply a highlight across the groups of a
region, threading the flattened character offset. -/
def applyRegion (i : String) (a b : Nat) : Nat → Region → Region
  | _, [] => []
  | o, g :: gs => applyPieces i a b o g :: applyRegion i a b (o + groupLen g) gs

/-- The number of text-node segments of a piece list that the selection
interval from a to b intersects. -/
def segPieces (a b : Nat) : Nat → List Piece → Nat
  | _, [] => 0
  | o, .pmark _ s :: rest => segPieces a b (o + s.length) rest
  | o, .ptext s :: rest =>
      (if max a o < min b (o + s.length) then 1 else 0) + segPieces a b (o + s.length) rest

/-- The number of text-node segments of a region that the selection
interval from a to b intersects — the N of the cross-element grouping
property. -/
def segRegion (a b : Nat) : Nat → Region → Nat
  | _, [] => 0
  | o, g :: gs => segPieces a b o g + segRegion a b (o + groupLen g) gs

/-- Modelled from the spec: deleting an annotation unwraps every mark
element carrying its id back into a text node; other marks stay. -/
def deletePieces (i : String) (g : List Piece) : List Piece :=
  g.map (fun p => match p with
    | .pmark j s => if j = i then .ptext s else .pmark j s
    | .ptext s => .ptext s)

/-- Modelled from the spec: DOM normalization of one element — adjacent
text nodes are merged and empty text nodes removed, exactly what the
Node normalize call does after a highlight is unwrapped. -/
def normalizeGroup : List Piece → List Piece
  | [] => []
  | .ptext s :: rest =>
      if s = [] then normalizeGroup rest
      else
        match normalizeGroup rest with
        | .ptext t :: r => .ptext (s ++ t) :: r
        | r => .ptext s :: r
  | .pmark j s :: rest => .pmark j s :: normalizeGroup rest

/-- Modelled from the spec: delete an annotation from a region and
normalize each containing element. -/
def deleteAndNormalize (i : String) (r : Region) : Region :=
  r.map (fun g => normalizeGroup (deletePieces i g))

/-- A group as the browser parses it before any annotation exists: no
marks, no empty text nodes, no two adjacent text nodes. With marks absent,
this means the group is empty or a single nonempty text node. -/
def pristineGroup : Group → Bool
  | [] => true
  | [Piece.ptext s] => !s.isEmpty
  | _ => false

/-- A region all of whose groups are pristine. -/
def pristineRegion (r : Region) : Bool :=
  r.all pristineGroup

/-!
Client Sync Agent (spec sections 4.4, 5 and 9): the browser-side state
machine that keeps the rendered view consistent with the server store
without corrupting an in-progress edit. The poller defers DOM-disruptive
refreshes while the creation or edit popup is open; popup state survives a
reload through a short-lived session slot.
-/

/-- Modelled from the spec: the open creation or edit popup, its target
anchor and the note text typed so far. -/
structure PopupState where
  anchorText : String
  typed : String
  deriving DecidableEq, Repr

/-- Modelled from the spec: the session slot the pending popup is persisted
to before an unload (the air-pending-popup key). Reading it yields nothing,
a valid record, or corrupt data that fails to parse. -/
inductive PendingSlot where
  | empty
  | valid (anchorText : String) (typed : String)
  | corrupt
  deriving DecidableEq, Repr

/-- Modelled from the spec: the Client Sync Agent state — the store driving
the rendered highlights and panel, the open popup if any, the deferred
store update the poller parked while the popup was open, and the session
slot for popup persistence. -/
structure AgentState where
  rendered : Store
  popup : Option PopupState
  pendingUpdate : Option Store
  slot : PendingSlot
  deriving DecidableEq, Repr

/-- Modelled from the spec: one poller tick that detected an external store
change. While the popup is open the DOM-disruptive refresh is deferred —
the new store is parked, replacing any earlier parked one, and nothing
rendered changes; with no popup open the refresh is applied at once. -/
def pollerTick (st : AgentState) (u : Store) : AgentState :=
  match st.popup with
  | some _ => { st with pendingUpdate := some u }
  | none => { st with rendered := u, pendingUpdate := none }

/-- A sequence of detected external store changes, oldest first. -/
def pollerRun (st : AgentState) (us : List Store) : AgentState :=
  us.foldl pollerTick st

/-- Modelled from the spec: typing into the open popup textarea. -/
def typeNote (st : AgentState) (t : String) : AgentState :=
  match st.popup with
  | some p => { st with popup := some { p with typed := t } }
  | none => st

/-- Modelled from the spec: closing the popup applies the deferred update,
if one was parked, after the popup interaction. -/
def closePopup (st : AgentState) : AgentState :=
  match st.pendingUpdate with
  | some u => { st with popup := none, rendered := u, pendingUpdate := none }
  | none => { st with popup := none }

/-- The number of orphan indicators the panel shows: annotations of the
rendered store whose anchor resolves to neither tier. -/
def orphanIndicators (d : Document) (st : AgentState) (url : String) : Nat :=
  ((pageAnnots st.rendered url).filter (fun a =>
    match a.range with
    | some r => resolveAnchor d r = .orphaned
    | none => false)).length

/-- Modelled from the spec: before an unload with the popup open, the
pending popup target anchor and typed note text are persisted to the
session slot. -/
def persistOnUnload (st : AgentState) : AgentState :=
  match st.popup with
  | some p => { st with slot := .valid p.anchorText p.typed }
  | none => st

/-- Modelled from the spec: on load, the session slot is consumed — a
valid record re-opens the same popup state, corrupt data is discarded
without opening a popup, and the key is always cleared after either a
successful restore or a discard. -/
def restoreOnLoad (st : AgentState) : AgentState :=
  match st.slot with
  | .valid a t => { st with popup := some { anchorText := a, typed := t }, slot := .empty }
  | .corrupt => { st with popup := none, slot := .empty }
  | .empty => { st with popup := none }

/-- A page reload: the popup is torn down with the page, then the slot is
consumed by the fresh page load. -/
def reloadPage (st : AgentState) : AgentState :=
  restoreOnLoad { persistOnUnload st with popup := none }

/-- Modelled from the spec: saving the open popup creates the annotation
with exactly the typed note text and the anchored selection, clears the
popup and persists the record. -/
def savePopup (st : AgentState) (newId now url : String) : AgentState :=
  match st.popup with
  | some p =>
      { st with
        popup := none
        rendered := { st.rendered with annotations := st.rendered.annotations ++
          [{ id := newId, pageUrl := url, note := p.typed,
             createdAt := now, updatedAt := now,
             selectedText := p.anchorText, range := none,
             resolvedAt := none, status := none, replies := [] }] } }
  | none => st

/-!
Badge and panel counters (spec section 4.4 and the panel acceptance
tests): the FAB badge is recomputed after every create and delete cycle
and counts annotations only; the This Page tab counter counts annotations
plus page notes.
-/

/-- A create or delete operation of the UI session, on annotations or page
notes of the current page. -/
inductive ClientOp where
  | createAnn (a : Annot)
  | deleteAnn (i : String)
  | createNote (n : PageNote)
  | deleteNote (i : String)
  deriving DecidableEq, Repr

/-- Modelled from the spec: the effect of one UI operation on the store. -/
def applyOp (s : Store) : ClientOp → Store
  | .createAnn a => { s with annotations := s.annotations ++ [a] }
  | .deleteAnn i => { s with annotations := s.annotations.filter (fun a => a.id ≠ i) }
  | .createNote n => { s with pageNotes := s.pageNotes ++ [n] }
  | .deleteNote i => { s with pageNotes := s.pageNotes.filter (fun n => n.id ≠ i) }

/-- The store after a sequence of UI operations. -/
def applyOps (s : Store) (ops : List ClientOp) : Store :=
  ops.foldl applyOp s

/-- Modelled from the spec: the UI badge state, recomputed from the
current page annotation set after every operation. -/
structure UiState where
  store : Store
  url : String
  badge : Nat
  deriving DecidableEq, Repr

/-- Modelled from the spec: one UI operation followed by the badge
recomputation the component performs after every create and delete. -/
def uiStep (st : UiState) (op : ClientOp) : UiState :=
  let s := applyOp st.store op
  { st with store := s, badge := badgeCount s st.url }

/-- A sequence of UI operations. -/
def uiRun (st : UiState) (ops : List ClientOp) : UiState :=
  ops.foldl uiStep st

/-- The page notes of the store scoped to one page. -/
def pageNotesFor (s : Store) (url : String) : List PageNote :=
  s.pageNotes.filter (fun n => n.pageUrl = url)

/-- Modelled from the spec: the This Page tab counter of the panel, which
counts the annotations plus the page notes of the current page. -/
def tabThisPageCount (s : Store) (url : String) : Nat :=
  (pageAnnots s url).length + (pageNotesFor s url).length

/-!
Concrete fixtures mirroring the data the acceptance tests create, used by
the witness theorems.
-/

/-- A plain text annotation on the fixture page, as the tests create it. -/
def sampleAnnot : Annot :=
  { id := "a1", pageUrl := "/", note := "Badge count test",
    createdAt := "t0", updatedAt := "t0",
    selectedText := "quick brown fox", range := none,
    resolvedAt := none, status := none, replies := [] }

/-- A page note on the fixture page, as the tests create it. -/
def samplePageNote : PageNote :=
  { id := "n1", pageUrl := "/", text := "A page note",
    createdAt := "t0", updatedAt := "t0" }

/-- The enriched annotation of the PATCH acceptance test: resolvedAt set
and one agent reply present. -/
def enrichedAnnot : Annot :=
  { id := "a1", pageUrl := "/", note := "Will be patched",
    createdAt := "t0", updatedAt := "t0",
    selectedText := "quick brown fox", range := none,
    resolvedAt := some "2025-06-15T14:30:00.000Z", status := none,
    replies := [{ message := "Should survive PATCH",
                  createdAt := "2025-06-15T15:00:00.000Z" }] }

/-- The store holding exactly the enriched annotation. -/
def enrichedStore : Store :=
  { version := 1, annotations := [enrichedAnnot], pageNotes := [] }

/-- The concrete document of the Tier 2 acceptance scenario: the fox
sentence with no XPath-resolvable nodes left. -/
def foxDocument : Document :=
  { nodes := [], text := "The quick brown fox jumps over the lazy dog".data }

/-- The concrete stored anchor of the Tier 2 acceptance scenario: broken
XPaths, intact selected text and context. -/
def foxAnchor : TextAnchor :=
  { startXPath := "/html[1]/body[1]/div[99]/text()[1]",
    endXPath := "/html[1]/body[1]/div[99]/text()[1]",
    startOffset := 4, endOffset := 19,
    selectedText := "quick brown fox",
    contextBefore := "The ",
    contextAfter := " jumps" }

/-- The concrete annotation of the Tier 2 acceptance scenario. -/
def foxAnnot : Annot :=
  { id := "a1", pageUrl := "/", note := "Context match test",
    createdAt := "t0", updatedAt := "t0",
    selectedText := "quick brown fox", range := some foxAnchor,
    resolvedAt := none, status := none, replies := [] }

/-- The fully broken anchor of the orphan acceptance scenario: dead
XPaths, garbage selected text and garbage context. -/
def brokenAnchor : TextAnchor :=
  { startXPath := "/html[1]/body[1]/div[99]/text()[1]",
    endXPath := "/html[1]/body[1]/div[99]/text()[1]",
    startOffset := 4, endOffset := 19,
    selectedText := "xyzzy nonexistent text",
    contextBefore := "aaaa garbage context before aaaa",
    contextAfter := "zzzz garbage context after zzzz" }

/-- The fully orphaned annotation of the orphan acceptance scenario. -/
def orphanAnnot : Annot :=
  { id := "a1", pageUrl := "/", note := "Orphan test",
    createdAt := "t0", updatedAt := "t0",
    selectedText := "xyzzy nonexistent text", range := some brokenAnchor,
    resolvedAt := none, status := none, replies := [] }

/-- The store holding exactly the orphaned annotation. -/
def orphanStore : Store :=
  { version := 1, annotations := [orphanAnnot], pageNotes := [] }

/-- A two-element region for the cross-element scenario: two paragraphs
whose text a selection can span. -/
def twoSegmentRegion : Region :=
  [[Piece.ptext "hello ".data], [Piece.ptext "world".data]]

/-!
Theorems settling the claims, in claim order.
-/

/-- Claim C6: for every persisted store document that fails to parse as
JSON or whose version field differs from the expected schema version,
load returns a fresh empty store without raising an error, so after
reload the page shows zero highlights and a zero badge count. -/
theorem claim_C6_corrupt_store_resets_empty
    (doc : PersistedDoc) (d : Document) (url : String)
    (h : rejectedDoc doc) :
    load doc = emptyStore ∧
    restoreHighlights d (load doc) url = [] ∧
    badgeCount (load doc) url = 0 := by
  have hload : load doc = emptyStore := by
    cases doc with
    | malformed => rfl
    | parsed v anns notes =>
        have hv : v ≠ expectedVersion := h
        simp [load, hv]
  refine ⟨hload, ?_, ?_⟩ <;> rw [hload] <;> rfl

/-- Witness for claim C6 at the concrete wrong-version document the
schema-recovery acceptance test writes. -/
theorem claim_C6_corrupt_store_resets_empty_witness :
    rejectedDoc (PersistedDoc.parsed 2 [] []) ∧
    (load (PersistedDoc.parsed 2 [] []) = emptyStore ∧
     restoreHighlights { nodes := [], text := [] }
       (load (PersistedDoc.parsed 2 [] [])) "/" = [] ∧
     badgeCount (load (PersistedDoc.parsed 2 [] [])) "/" = 0) :=
  ⟨(by decide : (2 : Nat) ≠ expectedVersion),
   claim_C6_corrupt_store_resets_empty (PersistedDoc.parsed 2 [] [])
     { nodes := [], text := [] } "/" (by decide : (2 : Nat) ≠ expectedVersion)⟩

/-- Claim C9: for every id not present in the store, DELETE and PATCH on
annotations and on page notes return status 404 with a body containing an
error field, and the store is left unchanged; the handlers are total, so
the service never crashes on an unknown id. -/
theorem claim_C9_unknown_id_404
    (s : Store) (i : String) (p : AnnotPatch) (t now : String)
    (ha : Store.hasAnnot s i = false) (hn : Store.hasPageNote s i = false) :
    (handleDeleteAnnot s i).1.status = 404 ∧
    ((handleDeleteAnnot s i).1.errorField).isSome = true ∧
    (handleDeleteAnnot s i).2 = s ∧
    (handlePatchAnnot s i p now).1.status = 404 ∧
    ((handlePatchAnnot s i p now).1.errorField).isSome = true ∧
    (handlePatchAnnot s i p now).2 = s ∧
    (handleDeletePageNote s i).1.status = 404 ∧
    ((handleDeletePageNote s i).1.errorField).isSome = true ∧
    (handleDeletePageNote s i).2 = s ∧
    (handlePatchPageNote s i t now).1.status = 404 ∧
    ((handlePatchPageNote s i t now).1.errorField).isSome = true ∧
    (handlePatchPageNote s i t now).2 = s := by
  simp [handleDeleteAnnot, handlePatchAnnot, handleDeletePageNote,
    handlePatchPageNote, ha, hn]

/-- Witness for claim C9 at the empty store and the concrete unknown id
the acceptance test sends. -/
theorem claim_C9_unknown_id_404_witness :
    Store.hasAnnot emptyStore "nonexistent-id-12345" = false ∧
    (handleDeleteAnnot emptyStore "nonexistent-id-12345").1.status = 404 ∧
    (handleDeleteAnnot emptyStore "nonexistent-id-12345").2 = emptyStore :=
  ⟨by decide,
   (claim_C9_unknown_id_404 emptyStore "nonexistent-id-12345" {} "x" "now"
      (by decide) (by decide)).1,
   (claim_C9_unknown_id_404 emptyStore "nonexistent-id-12345" {} "x" "now"
      (by decide) (by decide)).2.2.1⟩

/-- Claim C4: a PATCH whose body contains only the note field updates the
note, refreshes updatedAt, and leaves resolvedAt, status and the replies
array identical; and the merge never clears any field absent from the
patch body. -/
theorem claim_C4_patch_is_nondestructive
    (s : Store) (a : Annot) (n now : String)
    (hmem : a ∈ s.annotations)
    (huniq : ∀ x ∈ s.annotations, x.id = a.id → x = a)
    (hlife : a.resolvedAt.isSome = true ∨ a.status.isSome = true)
    (hrep : a.replies ≠ []) :
    (handlePatchAnnot s a.id (notePatch n) now).1.status = 200 ∧
    (∀ x ∈ (handlePatchAnnot s a.id (notePatch n) now).2.annotations,
      x.id = a.id →
        x.note = n ∧ x.resolvedAt = a.resolvedAt ∧ x.status = a.status ∧
        x.replies = a.replies ∧ x.updatedAt = now) ∧
    (∀ (b : Annot) (q : AnnotPatch),
      (q.note = none → (applyPatch b q now).note = b.note) ∧
      (q.selectedText = none → (applyPatch b q now).selectedText = b.selectedText) ∧
      (q.status = none → (applyPatch b q now).status = b.status) ∧
      (q.resolvedAt = none → (applyPatch b q now).resolvedAt = b.resolvedAt) ∧
      (q.replies = none → (applyPatch b q now).replies = b.replies)) := by
  have hhas : Store.hasAnnot s a.id = true := by
    simp only [Store.hasAnnot, List.any_eq_true]
    exact ⟨a, hmem, by simp⟩
  refine ⟨by simp [handlePatchAnnot, hhas], ?_, ?_⟩
  · intro x hx hid
    simp only [handlePatchAnnot, hhas, if_true] at hx
    rcases List.mem_map.1 hx with ⟨y, hy, rfl⟩
    by_cases hyid : y.id = a.id
    · have hya : y = a := huniq y hy hyid
      subst hya
      simp [applyPatch, notePatch]
    · rw [if_neg hyid] at hid
      exact absurd hid hyid
  · intro b q
    refine ⟨?_, ?_, ?_, ?_, ?_⟩ <;> intro hq <;> simp [applyPatch, hq]

/-- Witness for claim C4 at the concrete enriched annotation of the
acceptance test: resolvedAt set and one reply present, patched with the
note "Updated note after PATCH". -/
theorem claim_C4_patch_is_nondestructive_witness :
    (handlePatchAnnot enrichedStore enrichedAnnot.id
      (notePatch "Updated note after PATCH") "t1").1.status = 200 ∧
    ∀ x ∈ (handlePatchAnnot enrichedStore enrichedAnnot.id
        (notePatch "Updated note after PATCH") "t1").2.annotations,
      x.id = enrichedAnnot.id →
        x.note = "Updated note after PATCH" ∧
        x.resolvedAt = enrichedAnnot.resolvedAt ∧
        x.status = enrichedAnnot.status ∧
        x.replies = enrichedAnnot.replies ∧ x.updatedAt = "t1" :=
  ⟨(claim_C4_patch_is_nondestructive enrichedStore enrichedAnnot
      "Updated note after PATCH" "t1" (by decide) (by decide)
      (Or.inl (by decide)) (by decide)).1,
   (claim_C4_patch_is_nondestructive enrichedStore enrichedAnnot
      "Updated note after PATCH" "t1" (by decide) (by decide)
      (Or.inl (by decide)) (by decide)).2.1⟩

/-- Claim C10: the This Page tab counter counts annotations plus page
notes of the current page, and it increments by one on each added
annotation or page note of that page. -/
theorem claim_C10_tab_counts_both
    (s : Store) (url : String) (a : Annot) (n : PageNote)
    (ha : a.pageUrl = url) (hn : n.pageUrl = url) :
    tabThisPageCount s url = (pageAnnots s url).length + (pageNotesFor s url).length ∧
    tabThisPageCount (applyOp s (ClientOp.createAnn a)) url = tabThisPageCount s url + 1 ∧
    tabThisPageCount (applyOp s (ClientOp.createNote n)) url = tabThisPageCount s url + 1 := by
  refine ⟨rfl, ?_, ?_⟩ <;>
    simp [tabThisPageCount, applyOp, pageAnnots, pageNotesFor,
      List.filter_append, ha, hn] <;>
    omega

/-- Witness for claim C10 at a concrete annotation and page note on the
current page of an empty store. -/
theorem claim_C10_tab_counts_both_witness :
    tabThisPageCount (applyOp emptyStore (ClientOp.createAnn sampleAnnot)) "/" =
      tabThisPageCount emptyStore "/" + 1 ∧
    tabThisPageCount (applyOp emptyStore (ClientOp.createNote samplePageNote)) "/" =
      tabThisPageCount emptyStore "/" + 1 :=
  ⟨(claim_C10_tab_counts_both emptyStore "/" sampleAnnot samplePageNote
      (by decide) (by decide)).2.1,
   (claim_C10_tab_counts_both emptyStore "/" sampleAnnot samplePageNote
      (by decide) (by decide)).2.2⟩

/-- The badge recomputation of the UI step keeps the badge equal to the
number of annotations of the current page, along every operation
sequence. -/
theorem uiRun_badge_recomputed (ops : List ClientOp) :
    ∀ st : UiState, (uiRun st ops).badge =
      badgeCount (uiRun st ops).store (uiRun st ops).url ∨
      (ops = [] ∧ uiRun st ops = st) := by
  induction ops with
  | nil => intro st; exact Or.inr ⟨rfl, rfl⟩
  | cons op ops ih =>
      intro st
      rcases ih (uiStep st op) with h | ⟨hops, hrun⟩
      · exact Or.inl h
      · subst hops
        exact Or.inl (by rw [show uiRun st [op] = uiStep st op from rfl]; rfl)

/-- Claim C8: for all sequences of create and delete operations on
annotations and page notes, the FAB badge equals the number of live
annotations scoped to the current page, and page-note operations never
change it. -/
theorem claim_C8_badge_invariant
    (init : UiState) (ops : List ClientOp)
    (hinit : init.badge = badgeCount init.store init.url) :
    (uiRun init ops).badge =
      (pageAnnots (uiRun init ops).store (uiRun init ops).url).length ∧
    (∀ (st : UiState) (n : PageNote) (i : String),
      st.badge = badgeCount st.store st.url →
      (uiStep st (ClientOp.createNote n)).badge = st.badge ∧
      (uiStep st (ClientOp.deleteNote i)).badge = st.badge) := by
  constructor
  · rcases uiRun_badge_recomputed ops init with h | ⟨_, hrun⟩
    · exact h
    · rw [hrun]; exact hinit
  · intro st n i h
    constructor <;>
      simp [uiStep, applyOp, badgeCount, pageAnnots, h]

/-- Witness for claim C8 at a concrete run: create an annotation, add a
page note, delete the page note. -/
theorem claim_C8_badge_invariant_witness :
    (uiRun { store := emptyStore, url := "/", badge := 0 }
        [ClientOp.createAnn sampleAnnot, ClientOp.createNote samplePageNote,
         ClientOp.deleteNote "n1"]).badge =
      (pageAnnots
        (uiRun { store := emptyStore, url := "/", badge := 0 }
          [ClientOp.createAnn sampleAnnot, ClientOp.createNote samplePageNote,
           ClientOp.deleteNote "n1"]).store
        (uiRun { store := emptyStore, url := "/", badge := 0 }
          [ClientOp.createAnn sampleAnnot, ClientOp.createNote samplePageNote,
           ClientOp.deleteNote "n1"]).url).length :=
  (claim_C8_badge_invariant { store := emptyStore, url := "/", badge := 0 }
    [ClientOp.createAnn sampleAnnot, ClientOp.createNote samplePageNote,
     ClientOp.deleteNote "n1"] (by decide)).1

/-- Claim C7: a reload with an open popup restores the same popup with the
same anchor and the same typed text; saving the restored popup persists
exactly that note text; the pending-popup key is cleared after a
successful restore and after a discard of corrupt data, and corrupt
pending data is discarded without opening a popup. -/
theorem claim_C7_popup_persistence_roundtrip
    (st : AgentState) (p : PopupState) (newId now url : String)
    (hp : st.popup = some p) :
    (reloadPage st).popup = some p ∧
    (reloadPage st).slot = PendingSlot.empty ∧
    (∃ rec : Annot,
      (savePopup (reloadPage st) newId now url).rendered.annotations =
        st.rendered.annotations ++ [rec] ∧
      rec.note = p.typed ∧ rec.selectedText = p.anchorText) ∧
    (∀ st2 : AgentState, st2.slot = PendingSlot.corrupt →
      (restoreOnLoad st2).popup = none ∧
      (restoreOnLoad st2).slot = PendingSlot.empty) := by
  have hreload : reloadPage st = { st with popup := some p, slot := PendingSlot.empty } := by
    simp [reloadPage, persistOnUnload, restoreOnLoad, hp]
  refine ⟨by rw [hreload], by rw [hreload], ?_, ?_⟩
  · refine ⟨{ id := newId, pageUrl := url, note := p.typed,
              createdAt := now, updatedAt := now,
              selectedText := p.anchorText, range := none,
              resolvedAt := none, status := none, replies := [] }, ?_, rfl, rfl⟩
    rw [hreload]
    rfl
  · intro st2 h2
    simp [restoreOnLoad, h2]

/-- Witness for claim C7 at the concrete popup of the acceptance test:
the quick brown fox selection with an unsaved typed note. -/
theorem claim_C7_popup_persistence_roundtrip_witness :
    (reloadPage
      { rendered := emptyStore,
        popup := some { anchorText := "quick brown fox",
                        typed := "My unsaved note about foxes" },
        pendingUpdate := none, slot := PendingSlot.empty }).popup =
      some { anchorText := "quick brown fox",
             typed := "My unsaved note about foxes" } ∧
    (reloadPage
      { rendered := emptyStore,
        popup := some { anchorText := "quick brown fox",
                        typed := "My unsaved note about foxes" },
        pendingUpdate := none, slot := PendingSlot.empty }).slot =
      PendingSlot.empty :=
  ⟨(claim_C7_popup_persistence_roundtrip
      { rendered := emptyStore,
        popup := some { anchorText := "quick brown fox",
                        typed := "My unsaved note about foxes" },
        pendingUpdate := none, slot := PendingSlot.empty }
      { anchorText := "quick brown fox", typed := "My unsaved note about foxes" }
      "a1" "t1" "/" rfl).1,
   (claim_C7_popup_persistence_roundtrip
      { rendered := emptyStore,
        popup := some { anchorText := "quick brown fox",
                        typed := "My unsaved note about foxes" },
        pendingUpdate := none, slot := PendingSlot.empty }
      { anchorText := "quick brown fox", typed := "My unsaved note about foxes" }
      "a1" "t1" "/" rfl).2.1⟩

/-- While the popup stays open, any run of detected store changes leaves
the popup and the rendered store untouched and parks the latest detected
store as the pending update. -/
theorem pollerRun_defers (us : List Store) :
    ∀ (st : AgentState) (p : PopupState), st.popup = some p →
      (pollerRun st us).popup = some p ∧
      (pollerRun st us).rendered = st.rendered ∧
      (∀ u, us.getLast? = some u → (pollerRun st us).pendingUpdate = some u) := by
  induction us with
  | nil =>
      intro st p hp
      exact ⟨hp, rfl, fun u hu => by simp at hu⟩
  | cons v vs ih =>
      intro st p hp
      have hstep : pollerTick st v = { st with pendingUpdate := some v } := by
        simp [pollerTick, hp]
      have hrun : pollerRun st (v :: vs) = pollerRun (pollerTick st v) vs := rfl
      have hpop : (pollerTick st v).popup = some p := by rw [hstep]; exact hp
      rcases ih (pollerTick st v) p hpop with ⟨h1, h2, h3⟩
      refine ⟨by rw [hrun]; exact h1, by rw [hrun, h2, hstep], ?_⟩
      intro u hu
      cases vs with
      | nil =>
          have hv : v = u := by simpa using hu
          rw [hrun]
          rw [show pollerRun (pollerTick st v) [] = pollerTick st v from rfl, hstep, hv]
      | cons w ws =>
          rw [List.getLast?_cons_cons] at hu
          rw [hrun]
          exact h3 u hu

/-- Claim C1: while the popup is open, the poller never performs a refresh
that disrupts it — for every sequence of detected store changes the popup
and its typed contents stay open and unchanged, the rendered store does
not move (so no false orphan indicators appear), and the latest detected
update is applied when the popup closes rather than dropped. -/
theorem claim_C1_poller_deferral
    (st : AgentState) (p : PopupState) (us : List Store) (u : Store)
    (d : Document) (url : String)
    (hp : st.popup = some p) (hlast : us.getLast? = some u) :
    (pollerRun st us).popup = some p ∧
    (pollerRun st us).rendered = st.rendered ∧
    orphanIndicators d (pollerRun st us) url = orphanIndicators d st url ∧
    (pollerRun st us).pendingUpdate = some u ∧
    (closePopup (pollerRun st us)).popup = none ∧
    (closePopup (pollerRun st us)).rendered = u := by
  rcases pollerRun_defers us st p hp with ⟨h1, h2, h3⟩
  have hpend := h3 u hlast
  refine ⟨h1, h2, ?_, hpend, ?_, ?_⟩
  · unfold orphanIndicators
    rw [h2]
  · simp [closePopup, hpend]
  · simp [closePopup, hpend]

/-- Witness for claim C1: one open popup, one detected external store
change (the enriched store of the MCP scenario). -/
theorem claim_C1_poller_deferral_witness :
    (pollerRun
      { rendered := emptyStore,
        popup := some { anchorText := "Software engineering", typed := "" },
        pendingUpdate := none, slot := PendingSlot.empty }
      [enrichedStore]).popup =
      some { anchorText := "Software engineering", typed := "" } ∧
    (closePopup
      (pollerRun
        { rendered := emptyStore,
          popup := some { anchorText := "Software engineering", typed := "" },
          pendingUpdate := none, slot := PendingSlot.empty }
        [enrichedStore])).rendered = enrichedStore :=
  ⟨(claim_C1_poller_deferral
      { rendered := emptyStore,
        popup := some { anchorText := "Software engineering", typed := "" },
        pendingUpdate := none, slot := PendingSlot.empty }
      { anchorText := "Software engineering", typed := "" }
      [enrichedStore] enrichedStore { nodes := [], text := [] } "/"
      rfl rfl).1,
   (claim_C1_poller_deferral
      { rendered := emptyStore,
        popup := some { anchorText := "Software engineering", typed := "" },
        pendingUpdate := none, slot := PendingSlot.empty }
      { anchorText := "Software engineering", typed := "" }
      [enrichedStore] enrichedStore { nodes := [], text := [] } "/"
      rfl rfl).2.2.2.2.2⟩

/-- Claim C2: when the stored XPaths no longer resolve but selectedText
and context are intact in the document, resolution fails Tier 1, succeeds
at Tier 2, and produces a highlight covering the originally selected
text. -/
theorem contextMatchAt_selected (d : Document) (r : TextAnchor) (i : Nat)
    (h : contextMatchAt d r i = true) :
    (d.text.drop i).take r.selectedText.length = r.selectedText.data := by
  have h4 := by simpa [contextMatchAt, and_assoc] using h
  exact h4.1

theorem claim_C2_tier2_fallback
    (d : Document) (a : Annot) (r : TextAnchor) (j : Nat)
    (hr : a.range = some r)
    (hsx : Document.lookup d r.startXPath = none)
    ( _hex : Document.lookup d r.endXPath = none)
    (hsel : r.selectedText.data ≠ [])
    (hj : contextMatchAt d r j = true) :
    tier1Resolves d r = false ∧
    (∃ i, resolveAnchor d r = Resolution.tier2 i ∧ contextMatchAt d r i = true) ∧
    marksFor d a = [{ airId := a.id, covered := r.selectedText.data }] := by
  have ht1 : tier1Resolves d r = false := by
    simp [tier1Resolves, hsx]
  have hjmem : j ∈ List.range (d.text.length + 1) := by
    rw [List.mem_range]
    by_contra hout
    have hge : d.text.length ≤ j := by omega
    have hdrop : d.text.drop j = [] := List.drop_eq_nil_of_le hge
    have h1 := contextMatchAt_selected d r j hj
    rw [hdrop, List.take_nil] at h1
    exact hsel h1.symm
  have hfind : (findContextMatch d r).isSome = true := by
    rw [findContextMatch]
    exact List.find?_isSome.2 ⟨j, hjmem, hj⟩
  obtain ⟨i, hi⟩ := Option.isSome_iff_exists.mp hfind
  have hmi : contextMatchAt d r i = true := List.find?_some hi
  have hres : resolveAnchor d r = Resolution.tier2 i := by
    simp [resolveAnchor, ht1, hi]
  have hcov := contextMatchAt_selected d r i hmi
  refine ⟨ht1, ⟨i, hres, hmi⟩, ?_⟩
  simp [marksFor, hr, hres, hcov]

/-- Witness for claim C2 at the fox scenario: the XPaths are dead, the
context matches at position 4. -/
theorem claim_C2_tier2_fallback_witness :
    contextMatchAt foxDocument foxAnchor 4 = true ∧
    tier1Resolves foxDocument foxAnchor = false ∧
    (∃ i, resolveAnchor foxDocument foxAnchor = Resolution.tier2 i ∧
      contextMatchAt foxDocument foxAnchor i = true) ∧
    marksFor foxDocument foxAnnot =
      [{ airId := "a1", covered := "quick brown fox".data }] :=
  ⟨by decide,
   (claim_C2_tier2_fallback foxDocument foxAnnot foxAnchor 4 rfl rfl rfl
      (by decide) (by decide))⟩

/-- Every mark an annotation produces carries that annotation id. -/
theorem marksFor_airId (d : Document) (x : Annot) :
    ∀ m ∈ marksFor d x, m.airId = x.id := by
  intro m hm
  cases hrange : x.range with
  | none => simp [marksFor, hrange] at hm
  | some rr =>
      cases hres : resolveAnchor d rr with
      | tier1 =>
          simp only [marksFor, hrange, hres, List.mem_singleton] at hm
          rw [hm]
      | tier2 i =>
          simp only [marksFor, hrange, hres, List.mem_singleton] at hm
          rw [hm]
      | orphaned => simp [marksFor, hrange, hres] at hm

/-- Claim C3: when XPaths, selectedText and context are all broken,
resolution yields the orphaned outcome — no highlight mark is produced for
the annotation anywhere in the restored DOM, while the annotation still
appears exactly once in the panel list; resolution is total, so the
failure never throws and the annotation is never dropped. -/
theorem claim_C3_orphaned_still_listed
    (d : Document) (s : Store) (a : Annot) (r : TextAnchor) (url : String)
    (hr : a.range = some r)
    (hsx : Document.lookup d r.startXPath = none)
    ( _hex : Document.lookup d r.endXPath = none)
    (hnom : ∀ i, contextMatchAt d r i = false)
    (hcount : s.annotations.count a = 1)
    (huniq : ∀ x ∈ s.annotations, x.id = a.id → x = a)
    (hpage : a.pageUrl = url) :
    resolveAnchor d r = Resolution.orphaned ∧
    marksFor d a = [] ∧
    (restoreHighlights d s url).filter (fun m => m.airId = a.id) = [] ∧
    (panelItems s url).count a = 1 := by
  have ht1 : tier1Resolves d r = false := by
    simp [tier1Resolves, hsx]
  have hfind : findContextMatch d r = none := by
    rw [findContextMatch]
    exact List.find?_eq_none.2 (fun i _ => by simp [hnom i])
  have hres : resolveAnchor d r = Resolution.orphaned := by
    simp [resolveAnchor, ht1, hfind]
  have hmarks : marksFor d a = [] := by
    simp [marksFor, hr, hres]
  refine ⟨hres, hmarks, ?_, ?_⟩
  · rw [List.filter_eq_nil_iff]
    intro m hm
    simp only [decide_eq_true_eq]
    intro hmid
    rcases List.mem_flatMap.1 hm with ⟨x, hx, hmx⟩
    have hxmem : x ∈ s.annotations := (List.mem_filter.1 hx).1
    have hxid : x.id = a.id := (marksFor_airId d x m hmx).symm.trans hmid
    have hxa : x = a := huniq x hxmem hxid
    rw [hxa, hmarks] at hmx
    exact absurd hmx (List.not_mem_nil m)
  · rw [panelItems, pageAnnots, List.count_filter (by simp [hpage])]
    exact hcount

/-- A context match can occur only inside the document text, so checking
every position up to the text length settles the no-match condition for
every position. -/
theorem contextMatchAt_false_of_range (d : Document) (r : TextAnchor)
    (hsel : r.selectedText.data ≠ [])
    (h : ∀ i ∈ List.range (d.text.length + 1), contextMatchAt d r i = false) :
    ∀ i, contextMatchAt d r i = false := by
  intro i
  by_cases hi : i < d.text.length + 1
  · exact h i (List.mem_range.2 hi)
  · have hge : d.text.length ≤ i := by omega
    have hdrop : d.text.drop i = [] := List.drop_eq_nil_of_le hge
    cases hcm : contextMatchAt d r i with
    | false => rfl
    | true =>
        have h1 := contextMatchAt_selected d r i hcm
        rw [hdrop, List.take_nil] at h1
        exact absurd h1.symm hsel

/-- Witness for claim C3 at the orphan scenario: dead XPaths, garbage
selected text and garbage context against the fox document. -/
theorem claim_C3_orphaned_still_listed_witness :
    resolveAnchor foxDocument brokenAnchor = Resolution.orphaned ∧
    marksFor foxDocument orphanAnnot = [] ∧
    (restoreHighlights foxDocument orphanStore "/").filter
      (fun m => m.airId = orphanAnnot.id) = [] ∧
    (panelItems orphanStore "/").count orphanAnnot = 1 :=
  claim_C3_orphaned_still_listed foxDocument orphanStore orphanAnnot brokenAnchor "/"
    rfl rfl rfl
    (contextMatchAt_false_of_range foxDocument brokenAnchor (by decide) (by decide))
    (by decide) (by decide) rfl

/-- Shape analysis of a pristine group: empty, or one nonempty text
node. -/
theorem pristineGroup_shape (g : Group) (h : pristineGroup g = true) :
    g = [] ∨ ∃ s, s ≠ [] ∧ g = [Piece.ptext s] := by
  match g with
  | [] => exact Or.inl rfl
  | [Piece.ptext s] =>
      refine Or.inr ⟨s, ?_, rfl⟩
      simpa [pristineGroup] using h
  | Piece.pmark j s :: rest => simp [pristineGroup] at h
  | Piece.ptext s :: q :: rest => simp [pristineGroup] at h

/-- Normalization of a group of nonempty text nodes merges them into the
single text node holding the group text. -/
theorem normalizeGroup_allText : ∀ l : List Piece,
    (∀ p ∈ l, ∃ t, t ≠ [] ∧ p = Piece.ptext t) → l ≠ [] →
    normalizeGroup l = [Piece.ptext (groupText l)] := by
  intro l
  induction l with
  | nil => intro _ h; exact absurd rfl h
  | cons p rest ih =>
      intro hall hne
      obtain ⟨t, ht, hp⟩ := hall p (List.mem_cons_self p rest)
      subst hp
      cases rest with
      | nil => simp [normalizeGroup, groupText, Piece.content, ht]
      | cons q rest2 =>
          have hrest : normalizeGroup (q :: rest2) =
              [Piece.ptext (groupText (q :: rest2))] :=
            ih (fun p hp => hall p (List.mem_cons_of_mem _ hp)) (by simp)
          simp [normalizeGroup, ht, hrest, groupText, Piece.content]

/-- A pristine region carries no marks. -/
theorem pristineRegion_no_marks (i : String) : ∀ r : Region,
    pristineRegion r = true → regionMarks i r = 0 := by
  intro r
  induction r with
  | nil => intro _; rfl
  | cons g gs ih =>
      intro h
      rw [pristineRegion, List.all_cons, Bool.and_eq_true] at h
      have hrest : regionMarks i gs = 0 := ih h.2
      rcases pristineGroup_shape g h.1 with hg | ⟨s, _, hg⟩ <;> subst hg <;>
        simp [regionMarks, groupMarks, List.map_cons, List.sum_cons] <;>
        simpa [regionMarks] using hrest

/-- The text of a one-text-node group. -/
theorem groupText_one (u : List Char) :
    groupText [Piece.ptext u] = u := by
  simp [groupText, Piece.content]

/-- The text of a two-text-node group. -/
theorem groupText_two (u v : List Char) :
    groupText [Piece.ptext u, Piece.ptext v] = u ++ v := by
  simp [groupText, Piece.content]

/-- The text of a three-text-node group. -/
theorem groupText_three (u v w : List Char) :
    groupText [Piece.ptext u, Piece.ptext v, Piece.ptext w] = u ++ (v ++ w) := by
  simp [groupText, Piece.content]

/-- Highlight application on one pristine group: the mark count equals the
number of intersected segments, every produced mark carries the annotation
id, and deleting plus normalizing restores the group exactly. -/
theorem applyPieces_pristine (i : String) (a b o : Nat) (g : Group)
    (h : pristineGroup g = true) :
    groupMarks i (applyPieces i a b o g) = segPieces a b o g ∧
    (∀ p ∈ applyPieces i a b o g, ∀ j s, p = Piece.pmark j s → j = i) ∧
    normalizeGroup (deletePieces i (applyPieces i a b o g)) = g := by
  rcases pristineGroup_shape g h with hg | ⟨s, hs, hg⟩ <;> subst hg
  · refine ⟨rfl, ?_, rfl⟩
    intro p hp
    simp [applyPieces] at hp
  by_cases hint : max a o < min b (o + s.length)
  case neg =>
    have happ : applyPieces i a b o [Piece.ptext s] = [Piece.ptext s] := by
      simp [applyPieces, hint]
    rw [happ]
    refine ⟨?_, ?_, ?_⟩
    · simp [groupMarks, segPieces, hint]
    · intro p hp j s2 hpe
      rw [List.mem_singleton] at hp
      subst hp
      exact absurd hpe (by simp)
    · simp [deletePieces, normalizeGroup, hs]
  case pos =>
    have ho : o ≤ max a o := Nat.le_max_right a o
    have hub : min b (o + s.length) ≤ o + s.length := Nat.min_le_right _ _
    have hklt : max a o - o < s.length := by omega
    have hmidne :
        (s.drop (max a o - o)).take (min b (o + s.length) - max a o) ≠ [] := by
      rw [← List.length_pos, List.length_take, List.length_drop]
      exact lt_min_iff.mpr ⟨by omega, by omega⟩
    have happ : applyPieces i a b o [Piece.ptext s] =
        (if max a o = o then [] else [Piece.ptext (s.take (max a o - o))]) ++
        Piece.pmark i ((s.drop (max a o - o)).take (min b (o + s.length) - max a o)) ::
        (if min b (o + s.length) = o + s.length then [] else
          [Piece.ptext (s.drop (min b (o + s.length) - o))]) := by
      simp [applyPieces, hint]
    refine ⟨?_, ?_, ?_⟩
    · have hseg : segPieces a b o [Piece.ptext s] = 1 := by
        simp [segPieces, hint]
      rw [happ, hseg]
      by_cases h1 : max a o = o <;> by_cases h2 : min b (o + s.length) = o + s.length <;>
        simp [groupMarks, h1, h2]
    · rw [happ]
      intro p hp j s2 hpe
      rcases List.mem_append.1 hp with hp | hp
      · by_cases h1 : max a o = o
        · rw [if_pos h1] at hp
          exact absurd hp (List.not_mem_nil p)
        · rw [if_neg h1, List.mem_singleton] at hp
          subst hp
          exact absurd hpe (by simp)
      · rcases List.mem_cons.1 hp with hp | hp
        · subst hp
          injection hpe with hj _
          exact hj.symm
        · by_cases h2 : min b (o + s.length) = o + s.length
          · rw [if_pos h2] at hp
            exact absurd hp (List.not_mem_nil p)
          · rw [if_neg h2, List.mem_singleton] at hp
            subst hp
            exact absurd hpe (by simp)
    · rw [happ]
      by_cases h1 : max a o = o <;> by_cases h2 : min b (o + s.length) = o + s.length
      · -- selection covers the whole node
        rw [if_pos h1, if_pos h2, List.nil_append, h1, h2]
        rw [Nat.sub_self, List.drop_zero, Nat.add_sub_cancel_left, List.take_length]
        have hdel : deletePieces i [Piece.pmark i s] = [Piece.ptext s] := by
          simp [deletePieces]
        rw [hdel]
        rw [normalizeGroup_allText _ (by
          intro p hp
          rw [List.mem_singleton] at hp
          exact ⟨s, hs, hp⟩) (by simp)]
        rw [groupText_one]
      · -- selection starts at the node start, ends inside
        rw [if_pos h1, if_neg h2, List.nil_append, h1]
        rw [Nat.sub_self, List.drop_zero]
        have hpostne : s.drop (min b (o + s.length) - o) ≠ [] := by
          rw [← List.length_pos, List.length_drop]
          omega
        have htakene : s.take (min b (o + s.length) - o) ≠ [] := by
          rw [← List.length_pos, List.length_take]
          exact lt_min_iff.mpr ⟨by omega, by omega⟩
        have hdel : deletePieces i
            [Piece.pmark i (s.take (min b (o + s.length) - o)),
             Piece.ptext (s.drop (min b (o + s.length) - o))] =
            [Piece.ptext (s.take (min b (o + s.length) - o)),
             Piece.ptext (s.drop (min b (o + s.length) - o))] := by
          simp [deletePieces]
        rw [hdel]
        rw [normalizeGroup_allText _ (by
          intro p hp
          rcases List.mem_cons.1 hp with hp | hp
          · exact ⟨_, htakene, hp⟩
          · rw [List.mem_singleton] at hp
            exact ⟨_, hpostne, hp⟩) (by simp)]
        rw [groupText_two, List.take_append_drop]
      · -- selection starts inside, ends at the node end
        rw [if_neg h1, if_pos h2, List.singleton_append, h2]
        have hprene : s.take (max a o - o) ≠ [] := by
          rw [← List.length_pos, List.length_take]
          refine lt_min_iff.mpr ⟨by omega, by omega⟩
        have hmid2 : (s.drop (max a o - o)).take (o + s.length - max a o) =
            s.drop (max a o - o) := by
          apply List.take_of_length_le
          rw [List.length_drop]
          omega
        rw [hmid2]
        have hdropne : s.drop (max a o - o) ≠ [] := by
          rw [← List.length_pos, List.length_drop]
          omega
        have hdel : deletePieces i
            [Piece.ptext (s.take (max a o - o)),
             Piece.pmark i (s.drop (max a o - o))] =
            [Piece.ptext (s.take (max a o - o)),
             Piece.ptext (s.drop (max a o - o))] := by
          simp [deletePieces]
        rw [hdel]
        rw [normalizeGroup_allText _ (by
          intro p hp
          rcases List.mem_cons.1 hp with hp | hp
          · exact ⟨_, hprene, hp⟩
          · rw [List.mem_singleton] at hp
            exact ⟨_, hdropne, hp⟩) (by simp)]
        rw [groupText_two, List.take_append_drop]
      · -- selection strictly inside the node
        rw [if_neg h1, if_neg h2, List.singleton_append]
        have hprene : s.take (max a o - o) ≠ [] := by
          rw [← List.length_pos, List.length_take]
          exact lt_min_iff.mpr ⟨by omega, by omega⟩
        have hpostne : s.drop (min b (o + s.length) - o) ≠ [] := by
          rw [← List.length_pos, List.length_drop]
          omega
        have hdel : deletePieces i
            [Piece.ptext (s.take (max a o - o)),
             Piece.pmark i ((s.drop (max a o - o)).take
               (min b (o + s.length) - max a o)),
             Piece.ptext (s.drop (min b (o + s.length) - o))] =
            [Piece.ptext (s.take (max a o - o)),
             Piece.ptext ((s.drop (max a o - o)).take
               (min b (o + s.length) - max a o)),
             Piece.ptext (s.drop (min b (o + s.length) - o))] := by
          simp [deletePieces]
        rw [hdel]
        rw [normalizeGroup_allText _ (by
          intro p hp
          rcases List.mem_cons.1 hp with hp | hp
          · exact ⟨_, hprene, hp⟩
          · rcases List.mem_cons.1 hp with hp | hp
            · exact ⟨_, hmidne, hp⟩
            · rw [List.mem_singleton] at hp
              exact ⟨_, hpostne, hp⟩) (by simp)]
        rw [groupText_three]
        have hdd : s.drop (min b (o + s.length) - o) =
            (s.drop (max a o - o)).drop (min b (o + s.length) - max a o) := by
          rw [List.drop_drop]
          congr 1
          omega
        rw [hdd, List.take_append_drop, List.take_append_drop]

/-- Highlight application across a pristine region, at any starting
offset: mark count, mark ids, and the delete-then-normalize
round-trip. -/
theorem applyRegion_pristine (i : String) (a b : Nat) :
    ∀ (r : Region) (o : Nat), pristineRegion r = true →
      regionMarks i (applyRegion i a b o r) = segRegion a b o r ∧
      (∀ g ∈ applyRegion i a b o r, ∀ p ∈ g, ∀ j s, p = Piece.pmark j s → j = i) ∧
      deleteAndNormalize i (applyRegion i a b o r) = r := by
  intro r
  induction r with
  | nil =>
      intro o _
      exact ⟨rfl, by intro g hg; simp [applyRegion] at hg, rfl⟩
  | cons g gs ih =>
      intro o h
      rw [pristineRegion, List.all_cons, Bool.and_eq_true] at h
      obtain ⟨m1, m2, m3⟩ := applyPieces_pristine i a b o g h.1
      obtain ⟨r1, r2, r3⟩ := ih (o + groupLen g) h.2
      refine ⟨?_, ?_, ?_⟩
      · show regionMarks i (applyPieces i a b o g :: applyRegion i a b (o + groupLen g) gs) =
          segRegion a b o (g :: gs)
        rw [regionMarks, List.map_cons, List.sum_cons, segRegion]
        rw [m1]
        rw [show (List.map (groupMarks i) (applyRegion i a b (o + groupLen g) gs)).sum =
          regionMarks i (applyRegion i a b (o + groupLen g) gs) from rfl, r1]
      · intro g2 hg2 p hp j s hps
        rcases List.mem_cons.1 hg2 with hg2 | hg2
        · subst hg2
          exact m2 p hp j s hps
        · exact r2 g2 hg2 p hp j s hps
      · show normalizeGroup (deletePieces i (applyPieces i a b o g)) ::
          deleteAndNormalize i (applyRegion i a b (o + groupLen g) gs) = g :: gs
        rw [m3, r3]

/-- Claim C5: a selection spanning N text-node segments of a pristine
region produces exactly N marks, all carrying the one annotation id;
deleting that id and normalizing removes every mark, restores the original
text-node count, and leaves the text content unchanged. -/
theorem claim_C5_cross_element_grouping
    (i : String) (a b : Nat) (r : Region)
    (h : pristineRegion r = true) :
    regionMarks i (applyRegion i a b 0 r) = segRegion a b 0 r ∧
    (∀ g ∈ applyRegion i a b 0 r, ∀ p ∈ g, ∀ j s, p = Piece.pmark j s → j = i) ∧
    deleteAndNormalize i (applyRegion i a b 0 r) = r ∧
    regionMarks i (deleteAndNormalize i (applyRegion i a b 0 r)) = 0 ∧
    textNodeCount (deleteAndNormalize i (applyRegion i a b 0 r)) = textNodeCount r ∧
    regionText (deleteAndNormalize i (applyRegion i a b 0 r)) = regionText r := by
  obtain ⟨h1, h2, h3⟩ := applyRegion_pristine i a b r 0 h
  refine ⟨h1, h2, h3, ?_, ?_, ?_⟩
  · rw [h3]
    exact pristineRegion_no_marks i r h
  · rw [h3]
  · rw [h3]

/-- Witness for claim C5: the selection from offset 3 to offset 8 over two
pristine paragraphs spans two segments and produces two marks. -/
theorem claim_C5_cross_element_grouping_witness :
    pristineRegion twoSegmentRegion = true ∧
    1 < segRegion 3 8 0 twoSegmentRegion ∧
    (regionMarks "a1" (applyRegion "a1" 3 8 0 twoSegmentRegion) =
      segRegion 3 8 0 twoSegmentRegion ∧
     deleteAndNormalize "a1" (applyRegion "a1" 3 8 0 twoSegmentRegion) =
      twoSegmentRegion) :=
  ⟨by decide, by decide,
   (claim_C5_cross_element_grouping "a1" 3 8 twoSegmentRegion (by decide)).1,
   (claim_C5_cross_element_grouping "a1" 3 8 twoSegmentRegion (by decide)).2.2.1⟩

end InlineReview
